import Mathlib

/-!
Shallow embedding of the invoice extraction and validation pipeline
(`backend/invoice_qc`: `models.py`, `extractor.py`, `rules.py`,
`validator.py`).  Python `Optional` fields become `Option`, floats become
`ℚ` (the rules and claims only involve exact decimal arithmetic), and the
per-rule evaluation functions become total Lean functions.
-/

namespace InvoiceQC

/-- Python truthiness of an optional string: `None` and `""` are falsy. -/
def pyTruthy : Option String → Bool
  | none => false
  | some s => !(s == "")

/-- Strip leading and trailing whitespace from a character list
(Python `str.strip()`). -/
def trimChars (l : List Char) : List Char :=
  ((l.dropWhile Char.isWhitespace).reverse.dropWhile Char.isWhitespace).reverse

/-- Python `str.strip()`. -/
def stripStr (s : String) : String := String.mk (trimChars s.data)

/-- `needle` occurs as a contiguous run inside `hay`. -/
def listContains (hay needle : List Char) : Bool :=
  match hay with
  | [] => needle.isEmpty
  | _ :: cs => needle.isPrefixOf hay || listContains cs needle

/-- Python `needle in hay` substring containment. -/
def strContains (hay needle : String) : Bool := listContains hay.data needle.data

/-- Python `str.lower()` (ASCII case folding suffices for the header
vocabulary involved). -/
def lowerStr (s : String) : String := String.mk (s.data.map Char.toLower)

/-- Python `", ".join(files)`. -/
def joinComma : List String → String
  | [] => ""
  | [x] => x
  | x :: y :: xs => x ++ ", " ++ joinComma (y :: xs)

/-- Decimal digits of `n`, most significant first; `fuel` bounds the
recursion and any `fuel > log10 n` gives the exact digits. -/
def natDigits : Nat → Nat → List Char
  | 0, _ => []
  | fuel + 1, n =>
    if n < 10 then [Nat.digitChar n]
    else natDigits fuel (n / 10) ++ [Nat.digitChar (n % 10)]

def natRepr (n : Nat) : String := String.mk (natDigits (n + 1) n)

def intRepr (i : Int) : String :=
  if i < 0 then "-" ++ natRepr i.natAbs else natRepr i.natAbs

/-- Rendering of a rational into the message strings.  Python renders
binary floats (`str(float)` / `format(x, ".2f")`); this simplified decimal
renderer differs only in digit details inside messages, on which no rule
semantics, validity flag, or summary-count theorem below depends. -/
def ratRepr (q : ℚ) : String :=
  if q.den = 1 then intRepr q.num ++ ".0"
  else if 10000 % q.den = 0 then
    let scaled : Int := q.num * (10000 / (q.den : Int))
    let sgn : String := if scaled < 0 then "-" else ""
    let m : Nat := scaled.natAbs
    let frac : List Char := natDigits 5 (m % 10000)
    let frac4 : List Char := List.replicate (4 - frac.length) '0' ++ frac
    sgn ++ natRepr (m / 10000) ++ "." ++
      String.mk (frac4.reverse.dropWhile (· = '0')).reverse
  else intRepr q.num ++ "/" ++ natRepr q.den

/-! ## Data model (`models.py`) -/

structure LineItem where
  description : Option String := none
  quantity : Option ℚ := none
  unit_price : Option ℚ := none
  line_total : Option ℚ := none
deriving Repr, DecidableEq

structure Invoice where
  invoice_number : Option String := none
  external_reference : Option String := none
  invoice_date : Option String := none
  due_date : Option String := none
  seller_name : Option String := none
  seller_address : Option String := none
  seller_tax_id : Option String := none
  buyer_name : Option String := none
  buyer_address : Option String := none
  buyer_tax_id : Option String := none
  currency : Option String := none
  net_total : Option ℚ := none
  tax_amount : Option ℚ := none
  gross_total : Option ℚ := none
  payment_terms : Option String := none
  line_items : List LineItem := []
  source_file : Option String := none
deriving Repr, DecidableEq

structure ValidationError where
  rule : String
  message : String
  field : Option String := none
deriving Repr, DecidableEq

structure InvoiceValidationResult where
  invoice_id : String
  is_valid : Bool
  errors : List ValidationError := []
  warnings : List ValidationError := []
deriving Repr, DecidableEq

structure ValidationSummary where
  total_invoices : Nat
  valid_invoices : Nat
  invalid_invoices : Nat
  error_counts : List (String × Nat) := []
  warning_counts : List (String × Nat) := []
deriving Repr, DecidableEq

structure ValidationReport where
  summary : ValidationSummary
  results : List InvoiceValidationResult
deriving Repr, DecidableEq

/-! ## Amount parsing (`extractor.py`, `InvoiceExtractor._parse_amount`) -/

/-- Digit run value. -/
def digitsVal (l : List Char) : Nat :=
  l.foldl (fun a c => a * 10 + (c.toNat - 48)) 0

/-- Attach an optional exponent part (`e`/`E`, optional sign, digits) to a
parsed mantissa, requiring that it consume the rest of the input. -/
def withExp (base : ℚ) (rest : List Char) : Option ℚ :=
  match rest with
  | [] => some base
  | e :: r =>
    if e = 'e' ∨ e = 'E' then
      let (esgn, r1) : Int × List Char :=
        match r with
        | '+' :: r2 => (1, r2)
        | '-' :: r2 => (-1, r2)
        | _ => (1, r)
      let ed := r1.takeWhile Char.isDigit
      let r2 := r1.dropWhile Char.isDigit
      if ed.isEmpty ∨ !r2.isEmpty then none
      else some (base * (10 : ℚ) ^ (esgn * (digitsVal ed : Int)))
    else none

/-- CPython `float(str)` on an already-stripped string: optional sign,
decimal digits with optional fraction, optional exponent.  The special
spellings `inf`/`nan` and underscore digit grouping accepted by CPython
are outside the scope of this model (no rule or claim exercises them). -/
def parseFloatChars (l : List Char) : Option ℚ :=
  let (sgn, l1) : ℚ × List Char :=
    match l with
    | '+' :: r => (1, r)
    | '-' :: r => (-1, r)
    | _ => (1, l)
  let intPart := l1.takeWhile Char.isDigit
  let rest1 := l1.dropWhile Char.isDigit
  match rest1 with
  | '.' :: r2 =>
    let frac := r2.takeWhile Char.isDigit
    let rest2 := r2.dropWhile Char.isDigit
    if intPart.isEmpty ∧ frac.isEmpty then none
    else withExp (sgn * (digitsVal intPart + (digitsVal frac : ℚ) / (10 : ℚ) ^ frac.length)) rest2
  | _ =>
    if intPart.isEmpty then none
    else withExp (sgn * digitsVal intPart) rest1

/-- `amount_str.replace(",", "").strip()` followed by the float parse. -/
def cleanAmountChars (s : String) : List Char :=
  trimChars (s.data.filter (fun c => !(c == ',')))

/-- `InvoiceExtractor._parse_amount`: strip commas and surrounding space,
parse as a float, and coerce any parse failure to `0.0`. -/
def parse_amount (s : String) : ℚ :=
  (parseFloatChars (cleanAmountChars s)).getD 0

/-! ## Date normalization (`extractor.py`, `InvoiceExtractor._normalize_date`)

`datetime.strptime` with one of the seven fixed formats, modelled as the
regular expressions CPython compiles for the directives (`%d`: one or two
digits in 1..31, `%m`: one or two digits in 1..12, `%Y`: exactly four
digits, `%B`/`%b`: full/abbreviated month name case-insensitively, a
literal separator between fields), followed by the calendar-validity check
`datetime(year, month, day)` performs (month lengths, leap years, and
`year >= 1`). -/

def allDigits (l : List Char) : Bool := l.all Char.isDigit

/-- `%d` directive: one or two digits, value 1..31. -/
def parseDay (s : String) : Option Nat :=
  let l := s.data
  if allDigits l ∧ (l.length = 1 ∨ l.length = 2) ∧ 1 ≤ digitsVal l ∧ digitsVal l ≤ 31
  then some (digitsVal l) else none

/-- `%m` directive: one or two digits, value 1..12. -/
def parseMonth (s : String) : Option Nat :=
  let l := s.data
  if allDigits l ∧ (l.length = 1 ∨ l.length = 2) ∧ 1 ≤ digitsVal l ∧ digitsVal l ≤ 12
  then some (digitsVal l) else none

/-- `%Y` directive: exactly four digits. -/
def parseYear (s : String) : Option Nat :=
  let l := s.data
  if allDigits l ∧ l.length = 4 then some (digitsVal l) else none

def monthNamesFull : List String :=
  ["january", "february", "march", "april", "may", "june", "july",
   "august", "september", "october", "november", "december"]

def monthNamesAbbr : List String :=
  ["jan", "feb", "mar", "apr", "may", "jun", "jul", "aug", "sep", "oct", "nov", "dec"]

/-- Index (1-based) of a month name in a name table, case-insensitively. -/
def monthFromName (names : List String) (s : String) : Option Nat :=
  match names.indexOf? (lowerStr s) with
  | some i => some (i + 1)
  | none => none

def isLeapYear (y : Nat) : Bool := (y % 4 == 0 && y % 100 != 0) || y % 400 == 0

def daysInMonth (y m : Nat) : Nat :=
  if m = 2 then (if isLeapYear y then 29 else 28)
  else if m = 4 ∨ m = 6 ∨ m = 9 ∨ m = 11 then 30
  else 31

/-- The check `datetime(year, month, day)` performs before succeeding. -/
def validYmd (y m d : Nat) : Bool :=
  1 ≤ y && y ≤ 9999 && 1 ≤ m && m ≤ 12 && 1 ≤ d && d ≤ daysInMonth y m

/-- Split on a literal separator character (never whitespace here). -/
def splitSep (sep : Char) (s : String) : List String :=
  (s.data.splitOn sep).map String.mk

/-- Split on runs of whitespace, dropping empty tokens (the `\s+` a literal
space in a `strptime` format compiles to). -/
def splitWs (s : String) : List String :=
  ((s.data.splitBy (fun a b => a.isWhitespace = b.isWhitespace)).filter
    (fun w => !(w.all Char.isWhitespace))).map String.mk

/-- The seven formats `_normalize_date` tries, in order. -/
inductive DateFmt where
  | dmySlash   -- %d/%m/%Y
  | mdySlash   -- %m/%d/%Y
  | ymdDash    -- %Y-%m-%d
  | dmyDash    -- %d-%m-%Y
  | dmyDot     -- %d.%m.%Y
  | dMonthFull -- %d %B %Y
  | dMonthAbbr -- %d %b %Y
deriving Repr, DecidableEq

def dateFormats : List DateFmt :=
  [.dmySlash, .mdySlash, .ymdDash, .dmyDash, .dmyDot, .dMonthFull, .dMonthAbbr]

/-- `datetime.strptime(s, fmt)` for one format: returns `(year, month,
day)` when the whole string matches and denotes a real calendar date. -/
def parseWithFmt (fmt : DateFmt) (s : String) : Option (Nat × Nat × Nat) :=
  let ymd : Option (Nat × Nat × Nat) :=
    match fmt with
    | .dmySlash =>
      match splitSep '/' s with
      | [ds, ms, ys] =>
        match parseDay ds, parseMonth ms, parseYear ys with
        | some d, some m, some y => some (y, m, d)
        | _, _, _ => none
      | _ => none
    | .mdySlash =>
      match splitSep '/' s with
      | [ms, ds, ys] =>
        match parseDay ds, parseMonth ms, parseYear ys with
        | some d, some m, some y => some (y, m, d)
        | _, _, _ => none
      | _ => none
    | .ymdDash =>
      match splitSep '-' s with
      | [ys, ms, ds] =>
        match parseDay ds, parseMonth ms, parseYear ys with
        | some d, some m, some y => some (y, m, d)
        | _, _, _ => none
      | _ => none
    | .dmyDash =>
      match splitSep '-' s with
      | [ds, ms, ys] =>
        match parseDay ds, parseMonth ms, parseYear ys with
        | some d, some m, some y => some (y, m, d)
        | _, _, _ => none
      | _ => none
    | .dmyDot =>
      match splitSep '.' s with
      | [ds, ms, ys] =>
        match parseDay ds, parseMonth ms, parseYear ys with
        | some d, some m, some y => some (y, m, d)
        | _, _, _ => none
      | _ => none
    | .dMonthFull =>
      match splitWs s with
      | [ds, ns, ys] =>
        match parseDay ds, monthFromName monthNamesFull ns, parseYear ys with
        | some d, some m, some y => some (y, m, d)
        | _, _, _ => none
      | _ => none
    | .dMonthAbbr =>
      match splitWs s with
      | [ds, ns, ys] =>
        match parseDay ds, monthFromName monthNamesAbbr ns, parseYear ys with
        | some d, some m, some y => some (y, m, d)
        | _, _, _ => none
      | _ => none
  match ymd with
  | some (y, m, d) => if validYmd y m d then some (y, m, d) else none
  | none => none

/-- Zero-padded rendering `dt.strftime("%Y-%m-%d")`. -/
def pad2 (n : Nat) : String := String.mk [Nat.digitChar (n / 10 % 10), Nat.digitChar (n % 10)]

def pad4 (n : Nat) : String :=
  String.mk [Nat.digitChar (n / 1000 % 10), Nat.digitChar (n / 100 % 10),
             Nat.digitChar (n / 10 % 10), Nat.digitChar (n % 10)]

def renderYmd (y m d : Nat) : String := pad4 y ++ "-" ++ pad2 m ++ "-" ++ pad2 d

/-- The first format (in catalog order) that parses the stripped string. -/
def firstDateParse (s : String) : Option (Nat × Nat × Nat) :=
  dateFormats.findSome? (fun fmt => parseWithFmt fmt (stripStr s))

/-- `InvoiceExtractor._normalize_date`: first matching format wins and is
rendered `YYYY-MM-DD`; otherwise the original string is returned. -/
def normalize_date (s : String) : String :=
  match firstDateParse s with
  | some (y, m, d) => renderYmd y m d
  | none => s

/-! ## Currency extraction (`extractor.py`, `InvoiceExtractor._extract_currency`)

`CURRENCY_PATTERNS` is `[r"\b(USD|EUR|GBP|INR|JPY|CNY|CAD|AUD)\b", r"([€$£¥])"]`,
searched without `re.IGNORECASE`; `re.search` returns the leftmost match,
trying alternatives left to right at each position.  The texts involved are
ASCII, for which `\b` is the boundary between a word character
(`[A-Za-z0-9_]`) and a non-word character or the string edge. -/

def currencyCodes : List String := ["USD", "EUR", "GBP", "INR", "JPY", "CNY", "CAD", "AUD"]

def currencySymbols : List Char := ['€', '$', '£', '¥']

/-- `self.currency_map` (total on the four symbols the pattern captures). -/
def currencyMap (c : Char) : String :=
  if c = '€' then "EUR" else if c = '$' then "USD"
  else if c = '£' then "GBP" else "JPY"

def isWordChar (c : Char) : Bool := c.isAlphanum || c = '_'

/-- One code alternative matches at the current position: word boundary
before, then the characters of the code, then a word boundary after. -/
def codeHere (prev : Option Char) (l : List Char) (code : String) : Bool :=
  !(prev.elim false isWordChar) && code.data.isPrefixOf l &&
    (match l.drop code.data.length with
     | [] => true
     | c :: _ => !isWordChar c)

/-- First alternative (in pattern order) matching at the current position. -/
def codeAt (prev : Option Char) (l : List Char) : List String → Option String
  | [] => none
  | code :: rest => if codeHere prev l code then some code else codeAt prev l rest

/-- Leftmost position at which some alternative matches (`re.search`). -/
def findCode (prev : Option Char) : List Char → Option String
  | [] => none
  | c :: cs =>
    match codeAt prev (c :: cs) currencyCodes with
    | some code => some code
    | none => findCode (some c) cs

/-- Leftmost occurrence of one of the four currency symbols. -/
def findSymbol (l : List Char) : Option Char := l.find? (fun c => currencySymbols.contains c)

/-- `InvoiceExtractor._extract_currency`: the first pattern that matches
wins; a captured symbol is mapped through `currency_map`, a captured code
is returned as-is (codes are not keys of the map). -/
def extract_currency (text : String) : Option String :=
  match findCode none text.data with
  | some code => some code
  | none =>
    match findSymbol text.data with
    | some c => some (currencyMap c)
    | none => none

/-! ## Line items (`extractor.py`, `_extract_line_items` / `_parse_line_item_row`)

A table is a list of rows; a row is a list of cells, each `None` or a
string (`Option String`). -/

/-- A cell that Python treats as falsy (`not cell`): `None` or `""`. -/
def cellFalsy : Option String → Bool
  | none => true
  | some s => s == ""

/-- `str(cell).lower() if cell else ""` applied to the first table row. -/
def headerOf (table : List (List (Option String))) : List String :=
  (table.headD []).map (fun c => if cellFalsy c then "" else lowerStr (c.getD ""))

def hasDescriptionCol (header : List String) : Bool :=
  header.any (fun h => strContains h "description" || strContains h "item" || strContains h "product")

def hasQuantityCol (header : List String) : Bool :=
  header.any (fun h => strContains h "qty" || strContains h "quantity" || strContains h "amount")

def hasPriceCol (header : List String) : Bool :=
  header.any (fun h => strContains h "price" || strContains h "rate" || strContains h "unit")

/-- `not row or all(not cell for cell in row)`. -/
def blankRow (row : List (Option String)) : Bool := row.all cellFalsy

/-- Loop body of `_parse_line_item_row` for one `(idx, cell)` pair: falsy
cells and cells beyond the header are skipped, otherwise the stripped cell
is routed by its column-header keyword. -/
def stepCell (header : List String) (i : Nat) (c : Option String) (it : LineItem) : LineItem :=
  match c with
  | none => it
  | some raw =>
    if raw = "" then it
    else if header.length ≤ i then it
    else
      let cell := stripStr raw
      let col := header.getD i ""
      if strContains col "description" || strContains col "item" || strContains col "product" then
        { it with description := some cell }
      else if strContains col "qty" || strContains col "quantity" then
        match parseFloatChars (cell.data.filter (fun ch => !(ch == ','))) with
        | some q => { it with quantity := some q }
        | none => it
      else if strContains col "unit" && strContains col "price" then
        { it with unit_price := some (parse_amount cell) }
      else if strContains col "total" || strContains col "amount" then
        { it with line_total := some (parse_amount cell) }
      else it

def parseCells (header : List String) : Nat → List (Option String) → LineItem → LineItem
  | _, [], it => it
  | i, c :: cs, it => parseCells header (i + 1) cs (stepCell header i c it)

/-- `InvoiceExtractor._parse_line_item_row`. -/
def parse_line_item_row (row : List (Option String)) (header : List String) : LineItem :=
  parseCells header 0 row {}

/-- The row loop of `_extract_line_items` for one accepted table. -/
def tableRowsItems (header : List String) (rows : List (List (Option String))) : List LineItem :=
  rows.foldl
    (fun acc row =>
      if blankRow row then acc
      else if pyTruthy (parse_line_item_row row header).description then
        acc ++ [parse_line_item_row row header]
      else acc)
    []

/-- One iteration of the table loop of `_extract_line_items`. -/
def tableLineItems (table : List (List (Option String))) : List LineItem :=
  if table.length < 2 then []
  else
    let header := headerOf table
    if hasDescriptionCol header && (hasQuantityCol header || hasPriceCol header) then
      tableRowsItems header (table.drop 1)
    else []

/-- `InvoiceExtractor._extract_line_items` (the unused `text` argument is
dropped): all qualifying tables contribute, rows concatenated in order. -/
def extract_line_items (tables : List (List (List (Option String)))) : List LineItem :=
  tables.foldl (fun acc t => acc ++ tableLineItems t) []

/-! ## Rules (`rules.py`)

Each rule object carries a name, a description, a severity string
(`"error"` unless overridden) and its `validate` function. -/

structure ValidationRule where
  name : String
  description : String
  severity : String := "error"
  validate : Invoice → Option (List Invoice) → List ValidationError

/-- Rendering of an optional value inside an f-string: Python renders
`None` as the text `"None"`. -/
def fmtOptStr : Option String → String
  | none => "None"
  | some s => s

/-- `RequiredFieldRule.validate`: a string field is missing when `None` or
blank after stripping; the numeric field `gross_total` when `None`. -/
def missingStrField : Option String → Bool
  | none => true
  | some s => stripStr s == ""

def requiredFieldError (f : String) : ValidationError :=
  { rule := "required_fields"
    message := "Required field \x27" ++ f ++ "\x27 is missing or empty"
    field := some f }

def requiredFieldsValidate (inv : Invoice) : List ValidationError :=
  (if missingStrField inv.invoice_number then [requiredFieldError "invoice_number"] else []) ++
  (if missingStrField inv.invoice_date then [requiredFieldError "invoice_date"] else []) ++
  (if missingStrField inv.seller_name then [requiredFieldError "seller_name"] else []) ++
  (if missingStrField inv.buyer_name then [requiredFieldError "buyer_name"] else []) ++
  (if missingStrField inv.currency then [requiredFieldError "currency"] else []) ++
  (if inv.gross_total.isNone then [requiredFieldError "gross_total"] else [])

def requiredFieldsRule : ValidationRule :=
  { name := "required_fields"
    description := "Core invoice fields must be present and non-empty"
    validate := fun inv _ => requiredFieldsValidate inv }

/-- `TotalsMatchRule.validate` with the default `tolerance=0.02`. -/
def totalsMatchValidate (inv : Invoice) : List ValidationError :=
  match inv.net_total, inv.tax_amount, inv.gross_total with
  | some n, some t, some g =>
    let calcTotal := n + t
    let difference := |calcTotal - g|
    if difference > 0.02 then
      [{ rule := "totals_match"
         message := "Totals mismatch: " ++ ratRepr n ++ " + " ++ ratRepr t ++ " = " ++
           ratRepr calcTotal ++ ", but gross_total is " ++ ratRepr g ++
           " (diff: " ++ ratRepr difference ++ ")"
         field := some "gross_total" }]
    else []
  | _, _, _ => []

def totalsMatchRule : ValidationRule :=
  { name := "totals_match"
    description := "Net total + tax amount should equal gross total (within tolerance)"
    validate := fun inv _ => totalsMatchValidate inv }

/-- Sum of the present `line_total` values (`sum(...)` over the
generator, starting from 0). -/
def lineItemsSum (items : List LineItem) : ℚ :=
  (items.filterMap (fun it => it.line_total)).foldl (· + ·) 0

/-- `LineItemsTotalRule.validate` with the default `tolerance=0.02`;
`invoice.line_items` is Python-truthy exactly when non-empty. -/
def lineItemsTotalValidate (inv : Invoice) : List ValidationError :=
  match inv.net_total with
  | none => []
  | some n =>
    if inv.line_items.isEmpty then []
    else
      let s := lineItemsSum inv.line_items
      if s > 0 then
        let difference := |s - n|
        if difference > 0.02 then
          [{ rule := "line_items_total"
             message := "Line items sum (" ++ ratRepr s ++ ") doesn\x27t match net_total (" ++
               ratRepr n ++ "), diff: " ++ ratRepr difference
             field := some "line_items" }]
        else []
      else []

def lineItemsTotalRule : ValidationRule :=
  { name := "line_items_total"
    description := "Sum of line item totals should match net total"
    severity := "warning"
    validate := fun inv _ => lineItemsTotalValidate inv }

/-- `NegativeAmountsRule.validate`. -/
def negativeAmountError (f : String) (v : ℚ) : ValidationError :=
  { rule := "no_negative_amounts"
    message := "Field \x27" ++ f ++ "\x27 has negative value: " ++ ratRepr v
    field := some f }

def negativeAmountsValidate (inv : Invoice) : List ValidationError :=
  (match inv.net_total with
   | some v => if v < 0 then [negativeAmountError "net_total" v] else []
   | none => []) ++
  (match inv.tax_amount with
   | some v => if v < 0 then [negativeAmountError "tax_amount" v] else []
   | none => []) ++
  (match inv.gross_total with
   | some v => if v < 0 then [negativeAmountError "gross_total" v] else []
   | none => [])

def negativeAmountsRule : ValidationRule :=
  { name := "no_negative_amounts"
    description := "Invoice amounts should not be negative"
    validate := fun inv _ => negativeAmountsValidate inv }

/-- The list-comprehension filter of `DuplicateInvoiceRule.validate`:
other invoices sharing number, seller and date but from another file. -/
def duplicatesOf (inv : Invoice) (batch : List Invoice) : List Invoice :=
  batch.filter (fun i =>
    i.invoice_number == inv.invoice_number && i.seller_name == inv.seller_name &&
    i.invoice_date == inv.invoice_date && !(i.source_file == inv.source_file))

/-- The message joins the source files of the duplicates with `", "`.
Python would raise a `TypeError` on a duplicate whose `source_file` is `None`
(`str.join` over a list containing `None`); the theorems about this rule
therefore assume every batch invoice carries a source file, which the
extractor guarantees (`source_file` is always set to the PDF name). -/
def duplicateMessage (inv : Invoice) (dups : List Invoice) : String :=
  "Duplicate invoice detected. Same invoice_number (" ++ fmtOptStr inv.invoice_number ++
  ") from " ++ fmtOptStr inv.seller_name ++ " on " ++ fmtOptStr inv.invoice_date ++
  ". Duplicates in: " ++ joinComma (dups.map (fun i => i.source_file.getD "None"))

/-- `DuplicateInvoiceRule.validate`: `if not all_invoices or not
invoice.invoice_number: return []` — Python truthiness, so an unsupplied
or empty batch and a `None` or `""` invoice number all skip the rule. -/
def duplicateValidate (inv : Invoice) (all_invoices : Option (List Invoice)) : List ValidationError :=
  match all_invoices with
  | none => []
  | some batch =>
    if batch.isEmpty || !pyTruthy inv.invoice_number then []
    else
      let dups := duplicatesOf inv batch
      if dups.isEmpty then []
      else
        [{ rule := "no_duplicates"
           message := duplicateMessage inv dups
           field := some "invoice_number" }]

def duplicateInvoiceRule : ValidationRule :=
  { name := "no_duplicates"
    description := "Invoices should not have duplicate invoice numbers from same seller on same date"
    validate := duplicateValidate }

/-! ## Validator (`validator.py`) -/

/-- `invoice.invoice_number or invoice.source_file or "unknown"`. -/
def invoiceId (inv : Invoice) : String :=
  if pyTruthy inv.invoice_number then inv.invoice_number.getD ""
  else if pyTruthy inv.source_file then inv.source_file.getD ""
  else "unknown"

/-- Body of the rule loop of `InvoiceValidator.validate_invoice`: the
findings of a rule are appended to `warnings` when the severity of the rule is
`"warning"` and to `errors` otherwise. -/
def findingsStep (inv : Invoice) (all_invoices : Option (List Invoice))
    (acc : List ValidationError × List ValidationError) (rule : ValidationRule) :
    List ValidationError × List ValidationError :=
  let ruleErrors := rule.validate inv all_invoices
  if rule.severity == "warning" then (acc.1, acc.2 ++ ruleErrors)
  else (acc.1 ++ ruleErrors, acc.2)

/-- The rule loop of `InvoiceValidator.validate_invoice`. -/
def collectFindings (rules : List ValidationRule) (inv : Invoice)
    (all_invoices : Option (List Invoice)) : List ValidationError × List ValidationError :=
  rules.foldl (findingsStep inv all_invoices) ([], [])

/-- `InvoiceValidator.validate_invoice`. -/
def validate_invoice (rules : List ValidationRule) (inv : Invoice)
    (all_invoices : Option (List Invoice)) : InvoiceValidationResult :=
  let collected := collectFindings rules inv all_invoices
  { invoice_id := invoiceId inv
    is_valid := collected.1.isEmpty
    errors := collected.1
    warnings := collected.2 }

/-- `error.message.split(".")[0]`. -/
def firstSentence (m : String) : String := String.mk (m.data.takeWhile (fun c => !(c == '.')))

/-- The counting key built in `_generate_summary`: the rule name, a colon
and a space, then the message up to the first period. -/
def countKey (e : ValidationError) : String := e.rule ++ ": " ++ firstSentence e.message

/-- `counts[key] = counts.get(key, 0) + 1` on an insertion-ordered dict. -/
def bumpCount (m : List (String × Nat)) (k : String) : List (String × Nat) :=
  match m with
  | [] => [(k, 1)]
  | (k', v) :: rest => if k' = k then (k', v + 1) :: rest else (k', v) :: bumpCount rest k

/-- Tally the finding list of one result into a counts dict. -/
def tallyFindings (m : List (String × Nat)) (es : List ValidationError) : List (String × Nat) :=
  es.foldl (fun acc e => bumpCount acc (countKey e)) m

/-- `InvoiceValidator._generate_summary`.  Python fills both dicts in one
pass over the results; as the two accumulators are independent this equals
one pass per dict. -/
def generate_summary (results : List InvoiceValidationResult) : ValidationSummary :=
  let total := results.length
  let valid := (results.filter (fun r => r.is_valid)).length
  { total_invoices := total
    valid_invoices := valid
    invalid_invoices := total - valid
    error_counts := results.foldl (fun m r => tallyFindings m r.errors) []
    warning_counts := results.foldl (fun m r => tallyFindings m r.warnings) [] }

/-- `InvoiceValidator.validate_invoices`. -/
def validate_invoices (rules : List ValidationRule) (invoices : List Invoice) : ValidationReport :=
  let results := invoices.map (fun inv => validate_invoice rules inv (some invoices))
  { summary := generate_summary results, results := results }

/-! ## Derived characterizations used by the theorems -/

/-- All findings of the rules whose severity is not `"warning"`, in rule
order — exactly what `validate_invoice` accumulates into `errors`. -/
def errorFindings (rules : List ValidationRule) (inv : Invoice)
    (all_invoices : Option (List Invoice)) : List ValidationError :=
  (rules.filter (fun r => !(r.severity == "warning"))).flatMap (fun r => r.validate inv all_invoices)

/-- All findings of the rules whose severity is `"warning"`, in rule
order — exactly what `validate_invoice` accumulates into `warnings`. -/
def warningFindings (rules : List ValidationRule) (inv : Invoice)
    (all_invoices : Option (List Invoice)) : List ValidationError :=
  (rules.filter (fun r => r.severity == "warning")).flatMap (fun r => r.validate inv all_invoices)

/-- `CurrencyValidationRule.VALID_CURRENCIES` (`rules.py`): the whitelist
of recognized 3-letter ISO codes. -/
def VALID_CURRENCIES : List String :=
  ["EUR", "USD", "GBP", "INR", "JPY", "CNY", "CAD", "AUD", "CHF", "SEK"]

/-- Value of a key in an insertion-ordered counts dict (`0` when the key
is absent, as `dict.get(key, 0)` would report). -/
def lookupCount : List (String × Nat) → String → Nat
  | [], _ => 0
  | (k', v) :: rest, k => if k' = k then v else lookupCount rest k

/-! ## Concrete sample data for witnesses and counterexamples -/

def dupSampleA : Invoice :=
  { invoice_number := some "INV-1", seller_name := some "Acme",
    invoice_date := some "2024-01-01", source_file := some "a.pdf" }

def dupSampleB : Invoice :=
  { invoice_number := some "INV-1", seller_name := some "Acme",
    invoice_date := some "2024-01-01", source_file := some "b.pdf" }

/-- Two invoices agreeing on an empty-string invoice number, the same
seller and date, from different files. -/
def emptyNumA : Invoice :=
  { invoice_number := some "", seller_name := some "Acme",
    invoice_date := some "2024-01-01", source_file := some "a.pdf" }

def emptyNumB : Invoice :=
  { invoice_number := some "", seller_name := some "Acme",
    invoice_date := some "2024-01-01", source_file := some "b.pdf" }

/-- A line-items table: qualifying header, one row with a blank
description but populated quantity, one row with a description whose
numeric cell does not parse. -/
def sampleTable : List (List (Option String)) :=
  [[some "Description", some "Qty"], [some "", some "2"], [some "Widget", some "abc"]]

/-! ## Theorems -/

theorem findings_foldl_eq (inv : Invoice) (all_invoices : Option (List Invoice))
    (rules : List ValidationRule) :
    ∀ es ws, rules.foldl (findingsStep inv all_invoices) (es, ws) =
      (es ++ errorFindings rules inv all_invoices, ws ++ warningFindings rules inv all_invoices) := by
  induction rules with
  | nil => intro es ws; simp [errorFindings, warningFindings]
  | cons r rs ih =>
    intro es ws
    simp only [List.foldl_cons]
    by_cases h : (r.severity == "warning") = true
    · rw [show findingsStep inv all_invoices (es, ws) r = (es, ws ++ r.validate inv all_invoices) by
        simp [findingsStep, h]]
      rw [ih]
      simp [errorFindings, warningFindings, List.filter_cons, h]
    · rw [show findingsStep inv all_invoices (es, ws) r = (es ++ r.validate inv all_invoices, ws) by
        simp [findingsStep, h]]
      rw [ih]
      simp [errorFindings, warningFindings, List.filter_cons, h]

theorem collectFindings_eq (rules : List ValidationRule) (inv : Invoice)
    (all_invoices : Option (List Invoice)) :
    collectFindings rules inv all_invoices =
      (errorFindings rules inv all_invoices, warningFindings rules inv all_invoices) := by
  simpa using findings_foldl_eq inv all_invoices rules [] []

/-- C1: for every invoice (and any rule catalog and batch), the `is_valid`
flag of the `InvoiceValidationResult` produced by `validate_invoice` is
`true` iff rule evaluation produced zero findings from error-severity
rules; findings of warning-severity rules never enter that condition. -/
theorem is_valid_iff_no_error_findings (rules : List ValidationRule) (inv : Invoice)
    (all_invoices : Option (List Invoice)) :
    (validate_invoice rules inv all_invoices).is_valid = true ↔
      errorFindings rules inv all_invoices = [] := by
  unfold validate_invoice
  rw [collectFindings_eq]
  simp [List.isEmpty_iff]

/-- C2: with all of `net_total`, `tax_amount`, `gross_total` present, the
totals-reconciliation rule emits nothing when `|net + tax - gross| ≤ 0.02`
and exactly one error on field `gross_total` when it exceeds `0.02`; with
any of the three absent it emits nothing; in particular `100 + 20` against
a gross of `120` passes and against `125` yields exactly one error, the
difference there being `5`. -/
theorem totalsMatch_rule_spec :
    (∀ (inv : Invoice) (all_invoices : Option (List Invoice)) (n t g : ℚ),
       inv.net_total = some n → inv.tax_amount = some t → inv.gross_total = some g →
       ((|n + t - g| ≤ 0.02 → totalsMatchRule.validate inv all_invoices = []) ∧
        (0.02 < |n + t - g| →
          (totalsMatchRule.validate inv all_invoices).length = 1 ∧
          ∀ e ∈ totalsMatchRule.validate inv all_invoices, e.field = some "gross_total"))) ∧
    (∀ (inv : Invoice) (all_invoices : Option (List Invoice)),
       (inv.net_total = none ∨ inv.tax_amount = none ∨ inv.gross_total = none) →
       totalsMatchRule.validate inv all_invoices = []) ∧
    totalsMatchValidate { net_total := some 100, tax_amount := some 20, gross_total := some 120 } = [] ∧
    (totalsMatchValidate { net_total := some 100, tax_amount := some 20, gross_total := some 125 }).length = 1 ∧
    |(100 : ℚ) + 20 - 125| = 5 := by
  refine ⟨?_, ?_, ?_, ?_, by norm_num⟩
  · intro inv all_invoices n t g hn ht hg
    have hv : totalsMatchRule.validate inv all_invoices =
        if |n + t - g| > 0.02 then
          [{ rule := "totals_match"
             message := "Totals mismatch: " ++ ratRepr n ++ " + " ++ ratRepr t ++ " = " ++
               ratRepr (n + t) ++ ", but gross_total is " ++ ratRepr g ++
               " (diff: " ++ ratRepr |n + t - g| ++ ")"
             field := some "gross_total" }]
        else [] := by
      simp [totalsMatchRule, totalsMatchValidate, hn, ht, hg]
    constructor
    · intro hle
      rw [hv, if_neg (not_lt.mpr hle)]
    · intro hgt
      rw [hv, if_pos hgt]
      exact ⟨rfl, by simp⟩
  · intro inv all_invoices h
    rcases h with h | h | h <;> simp [totalsMatchRule, totalsMatchValidate, h]
  · norm_num [totalsMatchValidate]
  · norm_num [totalsMatchValidate]

/-- Witness for `totalsMatch_rule_spec` at the concrete invoice with
`net_total = 100`, `tax_amount = 20`, `gross_total = 125`. -/
theorem totalsMatch_rule_spec_witness :
    (totalsMatchRule.validate
      { net_total := some 100, tax_amount := some 20, gross_total := some 125 } none).length = 1 :=
  ((totalsMatch_rule_spec.1 _ none 100 20 125 rfl rfl rfl).2 (by norm_num)).1

/-- C4: for every invoice with `net_total` present, the line-items
reconciliation rule emits a finding iff the sum of present `line_total`
values is strictly positive and differs from `net_total` by more than
`0.02` (so a zero or absent sum yields nothing); and `validate_invoice`
routes all findings of warning-severity rules — this rule is one — into
`warnings`, building `errors` from the non-warning rules only. -/
theorem lineItemsTotal_rule_spec :
    (∀ (inv : Invoice) (all_invoices : Option (List Invoice)) (n : ℚ),
       inv.net_total = some n →
       (lineItemsTotalRule.validate inv all_invoices ≠ [] ↔
         (0 < lineItemsSum inv.line_items ∧ 0.02 < |lineItemsSum inv.line_items - n|))) ∧
    (∀ (rules : List ValidationRule) (inv : Invoice) (all_invoices : Option (List Invoice)),
       (validate_invoice rules inv all_invoices).warnings = warningFindings rules inv all_invoices ∧
       (validate_invoice rules inv all_invoices).errors = errorFindings rules inv all_invoices) ∧
    lineItemsTotalRule.severity = "warning" := by
  refine ⟨?_, ?_, rfl⟩
  · intro inv all_invoices n hn
    by_cases hemp : inv.line_items = []
    · simp [lineItemsTotalRule, lineItemsTotalValidate, hn, hemp, lineItemsSum]
    · have hne : inv.line_items.isEmpty = false := by
        simpa [List.isEmpty_iff] using hemp
      by_cases hpos : 0 < lineItemsSum inv.line_items
      · by_cases hdiff : 0.02 < |lineItemsSum inv.line_items - n|
        · simp [lineItemsTotalRule, lineItemsTotalValidate, hn, hne, hpos, hdiff, hemp]
        · simp [lineItemsTotalRule, lineItemsTotalValidate, hn, hne, hpos, hdiff,
            not_lt.mp hdiff]
      · simp [lineItemsTotalRule, lineItemsTotalValidate, hn, hne, hpos]
  · intro rules inv all_invoices
    unfold validate_invoice
    rw [collectFindings_eq]
    exact ⟨rfl, rfl⟩

/-- Witness for `lineItemsTotal_rule_spec` at an invoice with
`net_total = 100` and a single line item totalling `90`: the rule fires. -/
theorem lineItemsTotal_rule_spec_witness :
    lineItemsTotalRule.validate
      { net_total := some 100, line_items := [{ line_total := some 90 }] } none ≠ [] :=
  (lineItemsTotal_rule_spec.1 _ none 100 rfl).mpr (by norm_num [lineItemsSum, List.filterMap_cons, List.filterMap_nil])

theorem listContains_append_right (a b x : List Char) (h : listContains b x = true) :
    listContains (a ++ b) x = true := by
  induction a with
  | nil => simpa using h
  | cons c cs ih =>
    simp only [List.cons_append, listContains, Bool.or_eq_true]
    exact Or.inr ih

theorem listContains_self_append (x t : List Char) : listContains (x ++ t) x = true := by
  cases hx : x ++ t with
  | nil =>
    have : x = [] := by
      cases x with
      | nil => rfl
      | cons c cs => simp at hx
    simp [listContains, this]
  | cons c cs =>
    rw [listContains, Bool.or_eq_true]
    refine Or.inl ?_
    rw [List.isPrefixOf_iff_prefix, ← hx]
    exact List.prefix_append x t

theorem joinComma_contains (l : List String) (x : String) (hx : x ∈ l) :
    listContains (joinComma l).data x.data = true := by
  induction l with
  | nil => cases hx
  | cons y ys ih =>
    cases ys with
    | nil =>
      have : x = y := by simpa using hx
      subst this
      simpa using listContains_self_append x.data []
    | cons z zs =>
      rcases List.mem_cons.mp hx with h | h
      · subst h
        rw [joinComma, String.data_append, String.data_append, List.append_assoc]
        exact listContains_self_append x.data _
      · rw [joinComma, String.data_append, String.data_append]
        exact listContains_append_right _ _ _ (ih h)

/-- C3 counterexample: two batch invoices agree on the (present)
empty-string invoice number `""`, on the seller and on the date, and come
from different files — the claim demands exactly one error, but the rule,
which tests Python truthiness rather than presence, emits nothing. -/
theorem duplicate_rule_counterexample :
    emptyNumA.invoice_number = some "" ∧
    (∃ i ∈ [emptyNumA, emptyNumB], i.invoice_number = emptyNumA.invoice_number ∧
       i.seller_name = emptyNumA.seller_name ∧ i.invoice_date = emptyNumA.invoice_date ∧
       i.source_file ≠ emptyNumA.source_file) ∧
    duplicateInvoiceRule.validate emptyNumA (some [emptyNumA, emptyNumB]) = [] := by
  refine ⟨rfl, ⟨emptyNumB, by decide, by decide⟩, by decide⟩

/-- C3 (amended): for every invoice with a present and non-empty
`invoice_number` and a supplied batch whose invoices all carry a
`source_file` (as the extractor guarantees), the duplicate rule emits
exactly one error iff some batch invoice shares number, seller and date
but not the file; that error is on field `invoice_number` and its message
names the source file of every duplicate; a `None` invoice number or an
unsupplied batch yields nothing. -/
theorem duplicate_rule_amended :
    (∀ (inv : Invoice) (batch : List Invoice) (num : String),
       inv.invoice_number = some num → num ≠ "" →
       (∀ i ∈ batch, i.source_file ≠ none) →
       (((duplicateInvoiceRule.validate inv (some batch)).length = 1 ↔
          ∃ i ∈ batch, i.invoice_number = inv.invoice_number ∧
            i.seller_name = inv.seller_name ∧ i.invoice_date = inv.invoice_date ∧
            i.source_file ≠ inv.source_file) ∧
        (duplicatesOf inv batch = [] → duplicateInvoiceRule.validate inv (some batch) = []) ∧
        (∀ e ∈ duplicateInvoiceRule.validate inv (some batch),
           e.field = some "invoice_number" ∧
           ∀ d ∈ duplicatesOf inv batch, ∀ f, d.source_file = some f →
             strContains e.message f = true))) ∧
    (∀ (inv : Invoice) (all_invoices : Option (List Invoice)),
       inv.invoice_number = none → duplicateInvoiceRule.validate inv all_invoices = []) ∧
    (∀ inv : Invoice, duplicateInvoiceRule.validate inv none = []) := by
  refine ⟨?_, ?_, fun inv => rfl⟩
  · intro inv batch num hnum hne _hsf
    have htr : pyTruthy inv.invoice_number = true := by
      simp [pyTruthy, hnum, hne]
    by_cases hb : batch = []
    · subst hb
      refine ⟨by simp [duplicateInvoiceRule, duplicateValidate], ?_, ?_⟩
      · intro _; simp [duplicateInvoiceRule, duplicateValidate]
      · intro e he; simp [duplicateInvoiceRule, duplicateValidate] at he
    · have hbne : batch.isEmpty = false := by simpa [List.isEmpty_iff] using hb
      have hguard : (batch.isEmpty || !pyTruthy inv.invoice_number) = false := by
        simp [hbne, htr]
      have hv : duplicateInvoiceRule.validate inv (some batch) =
          if (duplicatesOf inv batch).isEmpty then []
          else [{ rule := "no_duplicates"
                  message := duplicateMessage inv (duplicatesOf inv batch)
                  field := some "invoice_number" }] := by
        simp [duplicateInvoiceRule, duplicateValidate, hguard]
      have hpred : ∀ i : Invoice,
          ((i.invoice_number == inv.invoice_number && i.seller_name == inv.seller_name &&
            i.invoice_date == inv.invoice_date && !(i.source_file == inv.source_file)) = true) ↔
          (i.invoice_number = inv.invoice_number ∧ i.seller_name = inv.seller_name ∧
            i.invoice_date = inv.invoice_date ∧ i.source_file ≠ inv.source_file) := by
        intro i
        simp [Bool.and_eq_true, beq_iff_eq, Bool.not_eq_true',
          beq_eq_false_iff_ne, and_assoc]
      have hmem : duplicatesOf inv batch ≠ [] ↔
          (∃ i ∈ batch, i.invoice_number = inv.invoice_number ∧
            i.seller_name = inv.seller_name ∧ i.invoice_date = inv.invoice_date ∧
            i.source_file ≠ inv.source_file) := by
        rw [Ne, duplicatesOf, List.filter_eq_nil_iff]
        push_neg
        exact exists_congr fun i => and_congr_right fun _ => hpred i
      refine ⟨?_, ?_, ?_⟩
      · rw [hv, ← hmem]
        by_cases hd : (duplicatesOf inv batch) = []
        · simp [hd]
        · have hie : (duplicatesOf inv batch).isEmpty = false := by
            simpa [List.isEmpty_iff] using hd
          simp [hie, hd]
      · intro hd; rw [hv]; simp [hd]
      · intro e he
        rw [hv] at he
        by_cases hd : (duplicatesOf inv batch) = []
        · simp [hd] at he
        · have hie : (duplicatesOf inv batch).isEmpty = false := by
            simpa [List.isEmpty_iff] using hd
          rw [if_neg (by simp [hie])] at he
          have he' : e = { rule := "no_duplicates"
                           message := duplicateMessage inv (duplicatesOf inv batch)
                           field := some "invoice_number" } := by simpa using he
          subst he'
          refine ⟨rfl, ?_⟩
          intro d hdm f hf
          have hfin : f ∈ (duplicatesOf inv batch).map (fun i => i.source_file.getD "None") := by
            exact List.mem_map.mpr ⟨d, hdm, by simp [hf]⟩
          unfold strContains duplicateMessage
          rw [String.data_append]
          exact listContains_append_right _ _ _ (joinComma_contains _ _ hfin)
  · intro inv all_invoices hnone
    cases all_invoices with
    | none => rfl
    | some batch => simp [duplicateInvoiceRule, duplicateValidate, pyTruthy, hnone]

/-- Witness for `duplicate_rule_amended`: the two `INV-1 / Acme /
2024-01-01` invoices from `a.pdf` and `b.pdf` trigger exactly one error. -/
theorem duplicate_rule_amended_witness :
    (duplicateInvoiceRule.validate dupSampleA (some [dupSampleA, dupSampleB])).length = 1 :=
  (duplicate_rule_amended.1 dupSampleA [dupSampleA, dupSampleB] "INV-1" rfl
    (by decide) (by decide)).1.mpr ⟨dupSampleB, by decide, by decide, by decide, by decide, by decide⟩

theorem codeAt_mem (prev : Option Char) (l : List Char) (codes : List String) (c : String)
    (h : codeAt prev l codes = some c) : c ∈ codes := by
  induction codes with
  | nil => simp [codeAt] at h
  | cons code rest ih =>
    rw [codeAt] at h
    by_cases hc : codeHere prev l code = true
    · rw [if_pos hc] at h
      injection h with h
      exact h ▸ List.mem_cons_self code rest
    · rw [if_neg hc] at h
      exact List.mem_cons_of_mem _ (ih h)

theorem findCode_mem (l : List Char) (c : String) :
    ∀ prev, findCode prev l = some c → c ∈ currencyCodes := by
  induction l with
  | nil => intro prev h; simp [findCode] at h
  | cons a as ih =>
    intro prev h
    rw [findCode] at h
    cases hca : codeAt prev (a :: as) currencyCodes with
    | some code =>
      rw [hca] at h
      injection h with h
      exact h ▸ codeAt_mem _ _ _ _ hca
    | none =>
      rw [hca] at h
      exact ih (some a) h

/-- C5 counterexample: `CHF` is a 3-letter ISO currency code — it is even
in the whitelist of the rule engine itself — and appears verbatim in the text
`"CHF"`, yet currency extraction returns `none` instead of `some "CHF"`:
the first pattern only recognizes the eight codes USD, EUR, GBP, INR,
JPY, CNY, CAD, AUD. -/
theorem currency_extraction_counterexample :
    "CHF" ∈ VALID_CURRENCIES ∧ ("CHF" : String).length = 3 ∧
    strContains "CHF" "CHF" = true ∧ extract_currency "CHF" = none := by
  refine ⟨by decide, by decide, by decide, by decide⟩

/-- C5 (amended): currency extraction returns the leftmost word-bounded
occurrence of one of the eight codes USD, EUR, GBP, INR, JPY, CNY, CAD,
AUD when one appears; otherwise it maps the first occurrence of one of
the symbols €, $, £, ¥ to EUR, USD, GBP, JPY respectively; otherwise the
currency is absent. -/
theorem currency_extraction_amended :
    (∀ (t : String) (c : String), findCode none t.data = some c →
       c ∈ currencyCodes ∧ extract_currency t = some c) ∧
    (∀ t : String, findCode none t.data = none →
       extract_currency t = (findSymbol t.data).map currencyMap) ∧
    (∀ t : String, findCode none t.data = none → findSymbol t.data = none →
       extract_currency t = none) ∧
    extract_currency "Total: 100 USD" = some "USD" ∧
    extract_currency "Summe € 5" = some "EUR" ∧
    extract_currency "$ 5" = some "USD" ∧
    extract_currency "£ 5" = some "GBP" ∧
    extract_currency "¥ 5" = some "JPY" ∧
    extract_currency "no known code" = none := by
  refine ⟨?_, ?_, ?_, by decide, by decide, by decide, by decide, by decide, by decide⟩
  · intro t c h
    exact ⟨findCode_mem _ _ _ h, by rw [extract_currency, h]⟩
  · intro t h
    rw [extract_currency, h]
    cases hs : findSymbol t.data <;> simp [hs]
  · intro t h hs
    rw [extract_currency, h, hs]

/-- Witness for `currency_extraction_amended`: the code pattern fires on
`"Total: 100 USD"`. -/
theorem currency_extraction_amended_witness :
    "USD" ∈ currencyCodes ∧ extract_currency "Total: 100 USD" = some "USD" :=
  currency_extraction_amended.1 "Total: 100 USD" "USD" (by decide)

/-- C6: amount parsing strips thousands separators (inserting or removing
commas never changes the result, and `"1,234.50"` parses to `1234.5`),
returns the parsed decimal value whenever the comma-stripped trimmed
string parses as a float, and returns exactly `0` whenever it does not —
it is a total function and never raises. -/
theorem parse_amount_spec :
    parse_amount "1,234.50" = 1234.5 ∧
    (∀ s : String,
       parse_amount s = parse_amount (String.mk (s.data.filter (fun c => !(c == ','))))) ∧
    (∀ s : String, parseFloatChars (cleanAmountChars s) = none → parse_amount s = 0) ∧
    (∀ (s : String) (q : ℚ), parseFloatChars (cleanAmountChars s) = some q → parse_amount s = q) := by
  refine ⟨?_, ?_, ?_, ?_⟩
  · have h : parse_amount "1,234.50" =
        (1 : ℚ) * (((1234 : Nat) : ℚ) + ((50 : Nat) : ℚ) / (10 : ℚ) ^ (2 : Nat)) := rfl
    rw [h]
    norm_num
  · intro s
    have hfun : (fun a : Char => !(a == ',') && !(a == ',')) = (fun c : Char => !(c == ',')) := by
      funext c
      exact Bool.and_self _
    have hclean : cleanAmountChars (String.mk (s.data.filter (fun c => !(c == ',')))) =
        cleanAmountChars s := by
      show trimChars ((s.data.filter (fun c => !(c == ','))).filter (fun c => !(c == ','))) =
        trimChars (s.data.filter (fun c => !(c == ',')))
      rw [List.filter_filter, hfun]
    rw [parse_amount, parse_amount, hclean]
  · intro s h
    rw [parse_amount, h]
    rfl
  · intro s q h
    rw [parse_amount, h]
    rfl

/-- Witness for `parse_amount_spec`: an unparseable string yields `0`. -/
theorem parse_amount_spec_witness : parse_amount "total due" = 0 :=
  parse_amount_spec.2.2.1 "total due" (by decide)

/-- C7: date normalization tries the fixed ordered format list
(`%d/%m/%Y`, `%m/%d/%Y`, `%Y-%m-%d`, `%d-%m-%Y`, `%d.%m.%Y`, `%d %B %Y`,
`%d %b %Y`); the first format that parses wins and the result is rendered
`YYYY-MM-DD`; if none parses the original string is returned verbatim.
`"31/12/2024"`, `"2024-12-31"` and `"31 Dec 2024"` all normalize to
`"2024-12-31"`; `"01/02/2024"` shows day/month taking precedence over
month/day, and `"12/31/2024"` falls through to the second format. -/
theorem normalize_date_spec :
    normalize_date "31/12/2024" = "2024-12-31" ∧
    normalize_date "2024-12-31" = "2024-12-31" ∧
    normalize_date "31 Dec 2024" = "2024-12-31" ∧
    normalize_date "01/02/2024" = "2024-02-01" ∧
    normalize_date "12/31/2024" = "2024-12-31" ∧
    (∀ s : String, firstDateParse s = none → normalize_date s = s) ∧
    (∀ (s : String) (y m d : Nat), firstDateParse s = some (y, m, d) →
       normalize_date s = renderYmd y m d) := by
  refine ⟨by decide, by decide, by decide, by decide, by decide, ?_, ?_⟩
  · intro s h
    rw [normalize_date, h]
  · intro s y m d h
    rw [normalize_date, h]

/-- Witness for `normalize_date_spec`: a string no format parses is
returned verbatim. -/
theorem normalize_date_spec_witness : normalize_date "not a date" = "not a date" :=
  normalize_date_spec.2.2.2.2.2.1 "not a date" (by decide)

theorem lookupCount_bumpCount (m : List (String × Nat)) (k k' : String) :
    lookupCount (bumpCount m k') k = lookupCount m k + (if k' = k then 1 else 0) := by
  induction m with
  | nil => by_cases h : k' = k <;> simp [bumpCount, lookupCount, h]
  | cons p rest ih =>
    obtain ⟨a, v⟩ := p
    by_cases h1 : a = k'
    · subst h1
      by_cases h2 : a = k <;> simp [bumpCount, lookupCount, h2]
    · by_cases h2 : a = k
      · subst h2
        have h3 : ¬(k' = a) := fun h => h1 h.symm
        simp [bumpCount, lookupCount, h1, h3]
      · simp [bumpCount, lookupCount, h1, h2, ih]

theorem lookupCount_tallyFindings (es : List ValidationError) :
    ∀ (m : List (String × Nat)) (k : String),
      lookupCount (tallyFindings m es) k =
        lookupCount m k + es.countP (fun e => countKey e == k) := by
  induction es with
  | nil => intro m k; simp [tallyFindings]
  | cons e es ih =>
    intro m k
    have hstep : tallyFindings m (e :: es) = tallyFindings (bumpCount m (countKey e)) es := rfl
    rw [hstep, ih, lookupCount_bumpCount, List.countP_cons]
    by_cases h : countKey e = k <;> simp [h]
    omega

theorem lookupCount_errors_fold (results : List InvoiceValidationResult) :
    ∀ (m : List (String × Nat)) (k : String),
      lookupCount (results.foldl (fun m r => tallyFindings m r.errors) m) k =
        lookupCount m k +
          ((results.flatMap (fun r => r.errors)).countP (fun e => countKey e == k)) := by
  induction results with
  | nil => intro m k; simp
  | cons r rs ih =>
    intro m k
    simp only [List.foldl_cons, List.flatMap_cons, List.countP_append]
    rw [ih, lookupCount_tallyFindings]
    omega

theorem lookupCount_warnings_fold (results : List InvoiceValidationResult) :
    ∀ (m : List (String × Nat)) (k : String),
      lookupCount (results.foldl (fun m r => tallyFindings m r.warnings) m) k =
        lookupCount m k +
          ((results.flatMap (fun r => r.warnings)).countP (fun e => countKey e == k)) := by
  induction results with
  | nil => intro m k; simp
  | cons r rs ih =>
    intro m k
    simp only [List.foldl_cons, List.flatMap_cons, List.countP_append]
    rw [ih, lookupCount_tallyFindings]
    omega

/-- C8: the generated summary satisfies `total_invoices` = number of
results, `valid_invoices` = number of results with `is_valid`,
`invalid_invoices` = total − valid, and the error (resp. warning) counts
dict maps each composite key `rule: message-before-first-period` to the
number of findings across the whole batch whose rule and message prefix
form that key. -/
theorem generate_summary_spec (results : List InvoiceValidationResult) :
    (generate_summary results).total_invoices = results.length ∧
    (generate_summary results).valid_invoices = results.countP (fun r => r.is_valid) ∧
    (generate_summary results).invalid_invoices =
      results.length - results.countP (fun r => r.is_valid) ∧
    (∀ k : String, lookupCount (generate_summary results).error_counts k =
      (results.flatMap (fun r => r.errors)).countP (fun e => countKey e == k)) ∧
    (∀ k : String, lookupCount (generate_summary results).warning_counts k =
      (results.flatMap (fun r => r.warnings)).countP (fun e => countKey e == k)) := by
  refine ⟨rfl, ?_, ?_, ?_, ?_⟩
  · simp [generate_summary, List.countP_eq_length_filter]
  · simp [generate_summary, List.countP_eq_length_filter]
  · intro k
    simpa [generate_summary, lookupCount] using lookupCount_errors_fold results [] k
  · intro k
    simpa [generate_summary, lookupCount] using lookupCount_warnings_fold results [] k

theorem stepCell_falsy (header : List String) (i : Nat) (c : Option String)
    (it : LineItem) (h : cellFalsy c = true) : stepCell header i c it = it := by
  cases c with
  | none => rfl
  | some s =>
    have hs : s = "" := by simpa [cellFalsy] using h
    simp [stepCell, hs]

theorem parseCells_all_falsy (header : List String) :
    ∀ (row : List (Option String)) (i : Nat) (it : LineItem),
      row.all cellFalsy = true → parseCells header i row it = it := by
  intro row
  induction row with
  | nil => intro i it _; rfl
  | cons c cs ih =>
    intro i it hall
    rw [List.all_cons, Bool.and_eq_true] at hall
    rw [parseCells, stepCell_falsy header i c it hall.1]
    exact ih (i + 1) it hall.2

theorem tableRowsItems_foldl (header : List String) (rows : List (List (Option String))) :
    ∀ acc,
      rows.foldl
        (fun acc row =>
          if blankRow row then acc
          else if pyTruthy (parse_line_item_row row header).description then
            acc ++ [parse_line_item_row row header]
          else acc)
        acc =
      acc ++ (rows.filter (fun r => pyTruthy (parse_line_item_row r header).description)).map
        (fun r => parse_line_item_row r header) := by
  induction rows with
  | nil => intro acc; simp
  | cons r rs ih =>
    intro acc
    simp only [List.foldl_cons, List.filter_cons]
    by_cases hb : blankRow r = true
    · have hdesc : pyTruthy (parse_line_item_row r header).description = false := by
        rw [parse_line_item_row, parseCells_all_falsy header r 0 {} hb]
        rfl
      rw [if_pos hb, ih, if_neg (by simp [hdesc])]
    · rw [if_neg hb]
      by_cases hd : pyTruthy (parse_line_item_row r header).description = true
      · rw [if_pos hd, if_pos hd, ih, List.map_cons]
        simp [List.append_assoc]
      · rw [if_neg hd, if_neg hd, ih]

/-- C9: in an accepted line-items table, the retained rows are exactly
those whose parsed description is Python-truthy (present and non-blank):
a row whose description comes out blank or absent contributes nothing,
whatever its numeric cells hold, and a row with a non-blank description is
kept (as its parse) even when no numeric cell parses. -/
theorem lineItems_description_gate (table : List (List (Option String)))
    (h2 : 2 ≤ table.length)
    (hacc : hasDescriptionCol (headerOf table) = true ∧
      (hasQuantityCol (headerOf table) || hasPriceCol (headerOf table)) = true) :
    tableLineItems table =
      ((table.drop 1).filter
        (fun r => pyTruthy (parse_line_item_row r (headerOf table)).description)).map
        (fun r => parse_line_item_row r (headerOf table)) := by
  rw [tableLineItems, if_neg (by omega)]
  rw [if_pos (by rw [hacc.1, hacc.2]; rfl)]
  exact tableRowsItems_foldl (headerOf table) (table.drop 1) []

/-- Witness for `lineItems_description_gate` at the sample table whose
header is `Description | Qty`: the blank-description row with a populated
quantity is dropped, the `Widget` row with an unparseable quantity stays. -/
theorem lineItems_description_gate_witness :
    tableLineItems sampleTable =
      ((sampleTable.drop 1).filter
        (fun r => pyTruthy (parse_line_item_row r (headerOf sampleTable)).description)).map
        (fun r => parse_line_item_row r (headerOf sampleTable)) :=
  lineItems_description_gate sampleTable (by decide) ⟨by decide, by decide⟩

theorem parseCells_high (header : List String) :
    ∀ (row : List (Option String)) (i : Nat) (it : LineItem),
      header.length ≤ i → parseCells header i row it = it := by
  intro row
  induction row with
  | nil => intro i it _; rfl
  | cons c cs ih =>
    intro i it h
    have hstep : stepCell header i c it = it := by
      cases c with
      | none => rfl
      | some s => simp [stepCell, Nat.not_lt.mpr h, h]
    rw [parseCells, hstep]
    exact ih (i + 1) it (Nat.le_succ_of_le h)

theorem parseCells_take (header : List String) :
    ∀ (row : List (Option String)) (i : Nat) (it : LineItem),
      parseCells header i row it = parseCells header i (row.take (header.length - i)) it := by
  intro row
  induction row with
  | nil => intro i it; simp
  | cons c cs ih =>
    intro i it
    by_cases h : header.length ≤ i
    · rw [Nat.sub_eq_zero_of_le h, List.take_zero]
      rw [parseCells_high header (c :: cs) i it h]
      rfl
    · have hsub : header.length - i = (header.length - (i + 1)) + 1 := by omega
      rw [hsub, List.take_succ_cons, parseCells, parseCells]
      exact ih (i + 1) (stepCell header i c it)

theorem parseCells_normalize (header : List String) :
    ∀ (row : List (Option String)) (i : Nat) (it : LineItem),
      parseCells header i row it =
        parseCells header i (row.map (fun c => if cellFalsy c then none else c)) it := by
  intro row
  induction row with
  | nil => intro i it; rfl
  | cons c cs ih =>
    intro i it
    have hstep : stepCell header i (if cellFalsy c then none else c) it = stepCell header i c it := by
      by_cases h : cellFalsy c = true
      · rw [if_pos h, stepCell_falsy header i c it h]
        rfl
      · rw [if_neg h]
    rw [List.map_cons, parseCells, parseCells, hstep]
    exact ih (i + 1) (stepCell header i c it)

/-- C10: line-item row parsing is total — it always yields a `LineItem` —
and both the cells at or beyond the header length and the empty cells are
skipped: truncating a ragged row to the header length, or blanking out the
falsy cells, never changes the parse, so no out-of-bounds access occurs. -/
theorem parse_line_item_row_total_safe (row : List (Option String)) (header : List String) :
    parse_line_item_row row header = parse_line_item_row (row.take header.length) header ∧
    parse_line_item_row row header =
      parse_line_item_row (row.map (fun c => if cellFalsy c then none else c)) header := by
  constructor
  · rw [parse_line_item_row, parse_line_item_row]
    simpa using parseCells_take header row 0 {}
  · rw [parse_line_item_row, parse_line_item_row]
    exact parseCells_normalize header row 0 {}

end InvoiceQC
